import Mathlib

/-!
Shallow embedding of the pak library's core marshaling engine
(src/pak/packets.py, src/pak/types/type.py, src/pak/types/enum.py),
with theorems checking the natural-language specification against it.

Buffers are lists of byte values (natural numbers); field values are
integers.  Fallible operations return Option or Except, with the error
case standing for the Python exception the source raises.
-/

namespace Pak

/-- A marshaling contract for one field Type: `pack` turns a value into
bytes, `unpack` reads a value off the front of a buffer, returning the
value and the remaining buffer, or `none` when the buffer is exhausted
(the source raises an error).  This models the `Type.pack`/`Type.unpack`
interface of src/pak/types/type.py used by `Packet`. -/
structure FieldType where
  fpack   : Int → List Nat
  funpack : List Nat → Option (Int × List Nat)

/-- A one-byte unsigned integer Type, standing in for the leaf types
(such as `UInt8`) that the spec places out of scope but which satisfy
the Type contract: pack emits the value modulo 256 as a single byte,
unpack consumes one byte. -/
def uint8 : FieldType where
  fpack := fun v => [(v % 256).toNat]
  funpack := fun buf =>
    match buf with
    | [] => none
    | b :: rest => some (Int.ofNat b, rest)

/-- Modelled from the spec: `EmptyType` (src/pak/types/misc.py, absent
from src/) is the trivial leaf Type used as the default `Packet._id_type`;
per the spec's Type contract for out-of-scope leaf types, it packs any
value to zero bytes and unpacks by consuming nothing. -/
def emptyType : FieldType where
  fpack := fun _ => []
  funpack := fun buf => some (0, buf)

/-- A Packet class: its ordered declared fields (name and Type), the
Type used to marshal its ID (`Packet._id_type`, packets.py line 101,
`EmptyType` by default), and the value its `id()` classmethod resolves
to (packets.py lines 109-152). -/
structure PacketClass where
  fields : List (String × FieldType)
  idType : FieldType
  idVal  : Int

/-- The byte concatenation of each declared field's Type-level pack in
declared field order.  This is the spec's description of `Packet.pack`
("concatenation of each field's Type-level pack in declared order"),
written directly from the spec's words for comparison with the source's
`Packet.pack`. -/
def fieldsPackConcat : List (String × FieldType) → List Int → List Nat
  | f :: fs, v :: vs => f.2.fpack v ++ fieldsPackConcat fs vs
  | _, _ => []

/-- `Packet.pack` (packets.py lines 276-310): packs the resolved ID via
`_id_type` and then joins each field's Type-level pack over the fields
and the instance's values in declared order. -/
def PacketClass.packP (c : PacketClass) (vs : List Int) : List Nat :=
  c.idType.fpack c.idVal ++ (c.fields.zip vs).flatMap (fun fv => fv.1.2.fpack fv.2)

/-- The field-reading loop of `Packet.unpack` (packets.py lines 258-274):
each declared field's Type unpacks sequentially from the buffer; a Type's
unpack failure propagates.  Returns the field values in declared order
and the remaining buffer. -/
def unpackFields : List (String × FieldType) → List Nat → Option (List Int × List Nat)
  | [], buf => some ([], buf)
  | f :: fs, buf =>
    match f.2.funpack buf with
    | none => none
    | some (v, rest) =>
      match unpackFields fs rest with
      | none => none
      | some (vs, rest2) => some (v :: vs, rest2)

/-- `Packet.__eq__` (packets.py lines 514-524) on two instances of the
same class (equal `_fields`): all field values pairwise equal, via zip;
the ID is not compared. -/
def packetBodyEq (vs ws : List Int) : Bool :=
  (vs.zip ws).all fun p => p.1 == p.2

/-- One field Type round-trips at one value: unpacking its packed bytes,
followed by anything, yields the value back and consumes exactly those
bytes. -/
def RoundTrips (t : FieldType) (v : Int) : Prop :=
  ∀ rest, t.funpack (t.fpack v ++ rest) = some (v, rest)

/-- A packet class whose ID type is a real one-byte Type rather than the
default `EmptyType`: one `uint8` field, `_id_type = uint8`, `id() = 1`.
Mirrors a Packet subclass setting `_id_type` (packets.py line 101). -/
def packetWithIdByte : PacketClass where
  fields := [("x", uint8)]
  idType := uint8
  idVal  := 1

/-- A packet class with the default `EmptyType` ID type and two `uint8`
fields, as in the basic tests. -/
def basicPacket : PacketClass where
  fields := [("attr1", uint8), ("attr2", uint8)]
  idType := emptyType
  idVal  := 0

/-! The accessor layer of Packet marshaling.  A Packet instance is
represented by its observable field values — what `getattr` returns —
since `Packet.pack` reads each field with `getattr` (packets.py lines
307-310 via `enumerate_field_types_and_values`) and `Packet.__eq__`
compares `getattr` results (lines 514-524).  `Packet.unpack` assigns
each decoded value with `setattr` through the field's accessor (lines
266-272), which may be the plain generated storage descriptor
(`Type.__get__`/`__set__`, type.py lines 250-263), a transforming
property as in Packet's own docstring (packets.py lines 78-94), or a
read-only property whose AttributeError is swallowed. -/

/-- One field with its accessor: the marshaling Type; `assign v` is the
observable (getter) value of the field after `setattr` of `v` through
the accessor, or `none` when the accessor refuses the assignment
(AttributeError); `roValue` is the getter's value when the assignment
was refused.  The plain generated descriptor stores verbatim:
`assign v = some v`. -/
structure PField where
  ftype : FieldType
  assign : Int → Option Int
  roValue : Int

/-- The observable value of one field after `Packet.unpack`'s
`try: setattr / except AttributeError: pass` (packets.py lines
266-272): the accessor's result, or the getter's own value when the
assignment was refused. -/
def observedAssign (f : PField) (v : Int) : Int :=
  match f.assign v with
  | some w => w
  | none => f.roValue

/-- A Packet class with accessors: ordered declared fields, the
`_id_type` and the resolved `id()` value, as in `PacketClass`. -/
structure AccPacketClass where
  fields : List (String × PField)
  idType : FieldType
  idVal  : Int

/-- `Packet.pack` (packets.py lines 276-310) over a class with
accessors: the packed ID followed by each field's Type-level pack of
the instance's observable values in declared order. -/
def AccPacketClass.packA (c : AccPacketClass) (vs : List Int) : List Nat :=
  c.idType.fpack c.idVal ++ (c.fields.zip vs).flatMap (fun fv => fv.1.2.ftype.fpack fv.2)

/-- The field loop of `Packet.unpack` (packets.py lines 258-274): each
declared field's Type unpacks sequentially from the buffer and the
decoded value is assigned through the field's accessor, refusals
swallowed; the resulting observable values are collected in order. -/
def unpackAccs : List (String × PField) → List Nat → Option (List Int × List Nat)
  | [], buf => some ([], buf)
  | f :: fs, buf =>
    match f.2.ftype.funpack buf with
    | none => none
    | some (v, rest) =>
      match unpackAccs fs rest with
      | none => none
      | some (vs, rest2) => some (observedAssign f.2 v :: vs, rest2)

/-- `Packet.unpack` (packets.py lines 227-274): reads every declared
field in order from the buffer through the accessors (the ID is not
unpacked); leftover bytes are ignored. -/
def AccPacketClass.unpackA (c : AccPacketClass) (buf : List Nat) : Option (List Int) :=
  (unpackAccs c.fields buf).map Prod.fst

/-- A field whose accessor is the plain generated storage descriptor:
assignment stores the value verbatim. -/
def plainField (t : FieldType) : PField :=
  ⟨t, fun v => some v, 0⟩

/-- The accessor-level packet with `_id_type` a one-byte Type and
`id() = 1`, one plainly stored `uint8` field. -/
def packetWithIdByteA : AccPacketClass where
  fields := [("x", plainField uint8)]
  idType := uint8
  idVal  := 1

/-- The accessor-level two-field packet with the default `EmptyType`
ID type and plain storage. -/
def basicPacketA : AccPacketClass where
  fields := [("attr1", plainField uint8), ("attr2", plainField uint8)]
  idType := emptyType
  idVal  := 0

/-- The transforming-property packet of Packet's own docstring
(packets.py lines 78-94): default `EmptyType` ID type, one `uint8`
field whose setter stores `value + 1`, so the observable value after
assigning `v` is `v + 1`. -/
def propPacket : AccPacketClass where
  fields := [("prop", ⟨uint8, fun v => some (v + 1), 0⟩)]
  idType := emptyType
  idVal  := 0

/-! Size resolution (src/pak/types/type.py, `Type.size`, lines 267-342).
The `_size` slot of a Type is, after `__init_subclass__`, either `None`,
a plain constant, a classmethod, or a `DynamicValue`.  A computed rule
can return an integer, return `None`, or raise `NoStaticSizeError`; we
model a rule as a function into `Except Unit (Option Int)` whose error
case is a raised `NoStaticSizeError`.  The `value` parameter of `size`
is `Option Int`, with `none` standing for the `STATIC_SIZE` sentinel.
The packet context is an abstract token (`Nat`). -/

inductive SizeSlot where
  | noneSlot : SizeSlot
  | constSlot : Int → SizeSlot
  | methodSlot : (Option Int → Nat → Except Unit (Option Int)) → SizeSlot
  | dynSlot : (Nat → Except Unit (Option Int)) → SizeSlot

/-- A Type as seen by `Type.size`: its `_size` slot and its `pack`. -/
structure SizedType where
  sizeSlot : SizeSlot
  spack : Int → Nat → List Nat

/-- `Type.size` (type.py lines 267-342): a classmethod slot is invoked
with the value and context, a DynamicValue slot with the context; a
raised `NoStaticSizeError` inside either is caught and treated as
`None`.  If the resulting size is a non-`None` constant it is returned;
otherwise, with a real value supplied the value is packed and its byte
length returned, and with the `STATIC_SIZE` sentinel a
`NoStaticSizeError` is raised. -/
def SizedType.size (T : SizedType) (value : Option Int) (ctx : Nat) : Except Unit Int :=
  let s : Option Int :=
    match T.sizeSlot with
    | SizeSlot.constSlot c => some c
    | SizeSlot.noneSlot => none
    | SizeSlot.methodSlot f =>
      match f value ctx with
      | Except.ok r => r
      | Except.error _ => none
    | SizeSlot.dynSlot g =>
      match g ctx with
      | Except.ok r => r
      | Except.error _ => none
  match s with
  | some n => Except.ok n
  | none =>
    match value with
    | none => Except.error ()
    | some v => Except.ok (Int.ofNat (T.spack v ctx).length)

/-- The spec's notion that the size slot "reports unknown" at a given
value and context: the slot is absent (`None`), or its computed rule
returns `None` or raises the no-static-size error. -/
def slotReportsUnknown (T : SizedType) (value : Option Int) (ctx : Nat) : Prop :=
  match T.sizeSlot with
  | SizeSlot.noneSlot => True
  | SizeSlot.constSlot _ => False
  | SizeSlot.methodSlot f => f value ctx = Except.ok none ∨ f value ctx = Except.error ()
  | SizeSlot.dynSlot g => g ctx = Except.ok none ∨ g ctx = Except.error ()

/-- A Type with only the constant size 4, as in the static-size test. -/
def staticSize4 : SizedType where
  sizeSlot := SizeSlot.constSlot 4
  spack := fun v _ => [(v % 256).toNat]

/-! Default resolution (src/pak/types/type.py, `Type.default`, lines
344-396).  To express the source's `copy.deepcopy` of a constant
default, values live in a heap of objects, each object either an
immutable atom or a mutable cell; `deepcopy` follows CPython: an
immutable atomic object is returned unchanged, a mutable object is
copied to a fresh address. -/

/-- A heap object: whether it is mutable, and its current data. -/
structure HObj where
  mutable : Bool
  hdata : Int
  deriving DecidableEq

abbrev Heap := List HObj

/-- Reads the object at an address (a total lookup with a dummy object
for out-of-range addresses, which well-formed states never use). -/
def heapGet (h : Heap) (a : Nat) : HObj :=
  h.getD a ⟨false, 0⟩

/-- Overwrites the data of the object at an address, keeping its
mutability flag: the model of mutating an object in place. -/
def heapSet (a : Nat) (x : Int) (h : Heap) : Heap :=
  h.set a ⟨(heapGet h a).mutable, x⟩

/-- The model of `copy.deepcopy` on one object: a mutable object is
duplicated at a fresh address; an immutable atomic object is returned
as-is (CPython returns atomic values unchanged from `deepcopy`). -/
def deepcopy (a : Nat) (h : Heap) : Nat × Heap :=
  let o := heapGet h a
  if o.mutable then (h.length, h ++ [o]) else (a, h)

/-- The `_default` slot of a Type after `__init_subclass__`: `None`, a
plain constant (an address of a stored object), a classmethod, or a
`DynamicValue`; computed rules take the context token and give the
address of their result. -/
inductive DefaultSlot where
  | noneSlot : DefaultSlot
  | constSlot : Nat → DefaultSlot
  | methodSlot : (Nat → Nat) → DefaultSlot
  | dynSlot : (Nat → Nat) → DefaultSlot

/-- `Type.default` (type.py lines 344-396): a `None` slot raises
`TypeError`; a classmethod slot is invoked with the context, as is a
DynamicValue slot; otherwise the constant default is deep-copied. -/
def typeDefault (slot : DefaultSlot) (ctx : Nat) (h : Heap) : Except Unit (Nat × Heap) :=
  match slot with
  | DefaultSlot.noneSlot => Except.error ()
  | DefaultSlot.methodSlot f => Except.ok (f ctx, h)
  | DefaultSlot.dynSlot g => Except.ok (g ctx, h)
  | DefaultSlot.constSlot a => Except.ok (deepcopy a h)

/-- A heap holding only the immutable atomic int 0 at address 0. -/
def immHeap : Heap := [⟨false, 0⟩]

/-- A heap holding one mutable object with data 7 at address 0. -/
def mutHeap : Heap := [⟨true, 7⟩]

/-! Enum (src/pak/types/enum.py). -/

/-- An Enum Type's value: a named constant with its underlying value,
or the reserved `Enum.INVALID` sentinel (enum.py line 51). -/
inductive EnumValue where
  | member : String → Int → EnumValue
  | invalid : EnumValue
  deriving DecidableEq

/-- The `cls.enum_type(value)` lookup: the first declared enum member
whose underlying value matches, or a ValueError (modelled as `none`). -/
def enumLookup (members : List (String × Int)) (v : Int) : Option (String × Int) :=
  members.find? fun m => m.2 == v

/-- `Enum._unpack` (enum.py lines 58-65): decode the underlying element
Type, then map to the matching constant; when no constant matches, the
ValueError is caught and the INVALID sentinel returned.  A decode
failure of the element Type itself propagates. -/
def enumUnpack (elem : FieldType) (members : List (String × Int)) (buf : List Nat) :
    Option (EnumValue × List Nat) :=
  match elem.funpack buf with
  | none => none
  | some (v, rest) =>
    match enumLookup members v with
    | some m => some (EnumValue.member m.1 m.2, rest)
    | none => some (EnumValue.invalid, rest)

/-- `Enum._pack` (enum.py lines 67-72): packing the INVALID sentinel
raises a ValueError; otherwise the member's underlying value is packed
with the element Type. -/
def enumPack (elem : FieldType) (value : EnumValue) : Except Unit (List Nat) :=
  match value with
  | EnumValue.invalid => Except.error ()
  | EnumValue.member _ v => Except.ok (elem.fpack v)

/-- The enum of the docstring example: A = 1, B = 2. -/
def myEnumMembers : List (String × Int) := [("A", 1), ("B", 2)]

/-! Typelike conversion (src/pak/types/type.py, lines 101-164).
Objects are abstract tokens; `isTypeSub x` models
`isinstance(x, type) and issubclass(x, Type)`; the registry models the
`Type._typelikes` dict in insertion order, each entry carrying the
isinstance check for its registered class and the converter. -/

structure TypelikeEntry where
  isInst : Nat → Bool
  conv : Nat → Nat

/-- `Type.__new__` (type.py lines 106-114): a Type subclass is returned
unchanged; otherwise the first registered entry whose class matches
converts the object; otherwise a TypeError is raised. -/
def typeNew (isTypeSub : Nat → Bool) (reg : List TypelikeEntry) (x : Nat) :
    Except Unit Nat :=
  if isTypeSub x then Except.ok x
  else
    match reg.find? (fun e => e.isInst x) with
    | some e => Except.ok (e.conv x)
    | none => Except.error ()

/-- `Type.is_typelike` (type.py lines 142-164): a Type subclass, or an
instance of some registered typelike class. -/
def isTypelike (isTypeSub : Nat → Bool) (reg : List TypelikeEntry) (x : Nat) : Bool :=
  isTypeSub x || reg.any fun e => e.isInst x

/-- A concrete Type-subclass predicate: token 7 is the only Type. -/
def tlIsTypeSub : Nat → Bool := fun n => n == 7

/-- A concrete registry: instances of one class (tokens equal to 1)
convert to the Type token 9. -/
def tlReg : List TypelikeEntry := [⟨fun n => n == 1, fun _ => 9⟩]

/-! ID dispatch (src/pak/packets.py, lines 452-512). -/

/-- A Packet class as seen by dispatch: a distinguishing tag and its
`id` classmethod resolving, per context, to an ID or to None. -/
structure PClass where
  tag : Nat
  idFn : Nat → Option Int

/-- The scan of `Packet.subclass_with_id` (packets.py lines 485-512):
over the recursive descendant set (`util.subclasses`, absent from src/,
modelled as a list), return the first whose resolved id is not None and
equals the query id under value equality, else None. -/
def subclassWithId (descs : List PClass) (i : Int) (ctx : Nat) : Option PClass :=
  descs.find? fun s =>
    match s.idFn ctx with
    | some j => j == i
    | none => false

/-- Modelled from the spec: the `util.cache` decorator applied to
`subclass_with_id` (src/pak/util is absent from src/) memoizes the
result per (id, ctx) key: a hit returns the stored result unchanged, a
miss computes the scan, stores it under the key and returns it. -/
def subclassWithIdCached (descs : List PClass)
    (cache : List ((Int × Nat) × Option PClass)) (i : Int) (ctx : Nat) :
    Option PClass × List ((Int × Nat) × Option PClass) :=
  match cache.find? (fun e => e.1 == (i, ctx)) with
  | some e => (e.2, cache)
  | none => (subclassWithId descs i ctx, ((i, ctx), subclassWithId descs i ctx) :: cache)

/-- Three Packet variants under a common root, declaring ids 0, 1, 2. -/
def rootChild0 : PClass := ⟨0, fun _ => some 0⟩

/-- Second variant, id 1. -/
def rootChild1 : PClass := ⟨1, fun _ => some 1⟩

/-- Third variant, id 2. -/
def rootChild2 : PClass := ⟨2, fun _ => some 2⟩

/-- The root's recursive descendant set. -/
def rootDescs : List PClass := [rootChild0, rootChild1, rootChild2]

/-! Field accessors and assignment refusal (src/pak/packets.py,
`Packet.__init__` lines 206-224 and `Packet.unpack` lines 258-274).
Each field has the marshaling Type, the Type's default (None meaning
`Type.default` raises), and its accessor: `settable` is false for a
read-only property, whose assignment raises AttributeError and whose
getter reports `roValue`. -/

structure AccessorField where
  aname : String
  ftype : FieldType
  fdefault : Option Int
  settable : Bool
  roValue : Int

/-- Python's `attr in kwargs` plus `kwargs.pop(attr)`: the keyword
value and the remaining keywords, or `none` when absent. -/
def popKw (kwargs : List (String × Int)) (nm : String) :
    Option (Int × List (String × Int)) :=
  match kwargs.find? (fun kv => kv.1 == nm) with
  | none => none
  | some kv => some (kv.2, kwargs.eraseP (fun kv2 => kv2.1 == nm))

/-- The loop of `Packet.__init__` (packets.py lines 206-224), carrying
the attribute store: an explicitly supplied keyword is assigned with no
exception handler, so a read-only accessor's AttributeError surfaces;
otherwise the field Type's default is computed (a missing default
raises TypeError) and its assignment's AttributeError is silently
swallowed.  Leftover keywords raise TypeError. -/
def initPacketGo : List AccessorField → List (String × Int) → List (String × Int) →
    Except String (List (String × Int))
  | [], kwargs, store =>
    if kwargs.isEmpty then Except.ok store
    else Except.error "TypeError: unexpected keyword arguments"
  | f :: fs, kwargs, store =>
    match popKw kwargs f.aname with
    | some (v, kwargs2) =>
      if f.settable then initPacketGo fs kwargs2 (store ++ [(f.aname, v)])
      else Except.error "AttributeError"
    | none =>
      match f.fdefault with
      | none => Except.error "TypeError: no default value"
      | some d =>
        if f.settable then initPacketGo fs kwargs (store ++ [(f.aname, d)])
        else initPacketGo fs kwargs store

/-- `Packet.__init__` (packets.py lines 206-224). -/
def initPacket (fields : List AccessorField) (kwargs : List (String × Int)) :
    Except String (List (String × Int)) :=
  initPacketGo fields kwargs []

/-- The field loop of `Packet.unpack` through accessors (packets.py
lines 258-274): each field's Type unpacks from the buffer in order, and
the assignment's AttributeError (read-only accessor) is silently
skipped; a Type unpack failure propagates.  Field defaults are never
consulted. -/
def unpackPacketAcc : List AccessorField → List Nat → Option (List (String × Int))
  | [], _ => some []
  | f :: fs, buf =>
    match f.ftype.funpack buf with
    | none => none
    | some (v, rest) =>
      match unpackPacketAcc fs rest with
      | none => none
      | some store => some (if f.settable then (f.aname, v) :: store else store)

/-- The same field, with the Type's default removed: used to state that
unpack never consults defaults. -/
def stripDefault (f : AccessorField) : AccessorField :=
  ⟨f.aname, f.ftype, none, f.settable, f.roValue⟩

/-- A writable field backed by `uint8` with default 0. -/
def propField : AccessorField := ⟨"prop", uint8, some 0, true, 0⟩

/-- A read-only field backed by `uint8` with default 0, whose getter
reports 1, as in the read-only property test. -/
def roField : AccessorField := ⟨"read_only", uint8, some 0, false, 1⟩

/-- A packet with one writable and one read-only field. -/
def accFields : List AccessorField := [propField, roField]

/-! Field declaration (src/pak/packets.py,
`Packet._init_fields_from_annotations`, lines 154-180) and
`PacketContext` (lines 20-29).  Field types are abstract tokens. -/

/-- `Packet._init_fields_from_annotations` (packets.py lines 154-180):
the class's `_fields` are rebuilt from the mapping that
`getattr(cls, "__annotations__", \x7b\x7d)` finds — the declaring
class's own annotated fields when its body has any, else the nearest
ancestor's via ordinary attribute inheritance; only when that mapping
is empty is the parent's `_fields` attribute inherited unchanged.  No
union of ancestor fields with own fields is computed, and no duplicate
check of any kind is performed (the function always succeeds). -/
def initFields (annots : List (String × Nat)) (parentFields : List (String × Nat)) :
    List (String × Nat) :=
  if annots.isEmpty then parentFields else annots

/-- `PacketContext` attribute assignment (packets.py lines 20-29): the
class body holds only a docstring, with no setattr override, so Python
object assignment always succeeds and stores the attribute. -/
def packetContextSetattr (attrs : List (String × Int)) (nm : String) (v : Int) :
    Except String (List (String × Int)) :=
  Except.ok ((nm, v) :: attrs)

/-- Declaring a subclass of `PacketContext` (packets.py lines 20-29):
the class defines no `__init_subclass__` hook or metaclass, so every
subclass declaration succeeds, whether or not the subclass supplies
`__hash__` and `__eq__`. -/
def packetContextDeclareSubclass (_hasHash _hasEq : Bool) : Except String Unit :=
  Except.ok ()

theorem packetBodyEq_refl (vs : List Int) : packetBodyEq vs vs = true := by
  induction vs with
  | nil => rfl
  | cons v vs ih => simpa [packetBodyEq] using ih

theorem zip_flatMap_eq_fieldsPackConcat :
    ∀ (fs : List (String × FieldType)) (vs : List Int),
      (fs.zip vs).flatMap (fun fv => fv.1.2.fpack fv.2) = fieldsPackConcat fs vs := by
  intro fs
  induction fs with
  | nil => intro vs; simp [fieldsPackConcat]
  | cons f fs ih =>
    intro vs
    cases vs with
    | nil => simp [fieldsPackConcat]
    | cons v vs => simp [fieldsPackConcat, ih]

theorem unpackAccs_roundtrip :
    ∀ (fs : List (String × PField)) (vs : List Int),
      vs.length = fs.length →
      (∀ p ∈ fs.zip vs, RoundTrips p.1.2.ftype p.2) →
      (∀ p ∈ fs.zip vs, observedAssign p.1.2 p.2 = p.2) →
      ∀ rest,
        unpackAccs fs ((fs.zip vs).flatMap (fun fv => fv.1.2.ftype.fpack fv.2) ++ rest)
          = some (vs, rest) := by
  intro fs
  induction fs with
  | nil =>
    intro vs hlen _ _ rest
    cases vs with
    | nil => simp [unpackAccs]
    | cons v vs => simp at hlen
  | cons f fs ih =>
    intro vs hlen hrt hacc rest
    cases vs with
    | nil => simp at hlen
    | cons v vs =>
      have hhead : RoundTrips f.2.ftype v := hrt (f, v) (by simp)
      have hachead : observedAssign f.2 v = v := hacc (f, v) (by simp)
      have htl : ∀ p ∈ fs.zip vs, RoundTrips p.1.2.ftype p.2 := fun p hp => hrt p (by simp [hp])
      have hatl : ∀ p ∈ fs.zip vs, observedAssign p.1.2 p.2 = p.2 := fun p hp => hacc p (by simp [hp])
      have hlen2 : vs.length = fs.length := by simpa using hlen
      simp only [List.zip_cons_cons, List.flatMap_cons, List.append_assoc]
      simp only [unpackAccs,
        hhead ((fs.zip vs).flatMap (fun fv => fv.1.2.ftype.fpack fv.2) ++ rest)]
      rw [ih vs hlen2 htl hatl rest, hachead]

end Pak

/-- C1 (amended): for every Packet class whose resolved ID packs to
zero bytes (as with the default `_id_type = EmptyType`), each of whose
field Types round-trips at the instance's observable values, and each
of whose field accessors is faithful at those values — assigning the
value through the accessor observes the same value back, as the plain
generated storage descriptors do — `unpack (pack p)` yields an instance
equal to `p` under `Packet.__eq__` (ID excluded).  As literally stated
the claim fails on two counts: `Packet.pack` prepends the packed ID
while `Packet.unpack` never consumes it, and a transforming property
setter (the example in Packet's own docstring) skews the re-assigned
values; see the counterexample. -/
theorem C1_packet_roundtrip (c : Pak.AccPacketClass) (vs : List Int)
    (hlen : vs.length = c.fields.length)
    (hid : c.idType.fpack c.idVal = [])
    (hrt : ∀ p ∈ c.fields.zip vs, Pak.RoundTrips p.1.2.ftype p.2)
    (hacc : ∀ p ∈ c.fields.zip vs, Pak.observedAssign p.1.2 p.2 = p.2) :
    ∃ ws, c.unpackA (c.packA vs) = some ws ∧ Pak.packetBodyEq vs ws = true := by
  refine ⟨vs, ?_, Pak.packetBodyEq_refl vs⟩
  have hun := Pak.unpackAccs_roundtrip c.fields vs hlen hrt hacc []
  rw [List.append_nil] at hun
  simp only [Pak.AccPacketClass.packA, Pak.AccPacketClass.unpackA, hid, List.nil_append, hun]
  rfl

/-- C1 witness: the amended round-trip at a concrete two-field packet
with plain storage accessors and values 3 and 4. -/
theorem C1_packet_roundtrip_witness :
    ∃ ws, Pak.basicPacketA.unpackA (Pak.basicPacketA.packA [3, 4]) = some ws ∧
      Pak.packetBodyEq [3, 4] ws = true := by
  apply C1_packet_roundtrip Pak.basicPacketA [3, 4] rfl rfl
  · intro p hp
    fin_cases hp <;> · intro rest; rfl
  · intro p hp
    fin_cases hp <;> rfl

/-- C1 counterexample, refuting the claim as stated and both ways the
amendment restricts it.  First, the packet class with `_id_type` a
one-byte Type and `id() = 1`: the instance with field value 5 packs to
`[1, 5]` and unpacking yields field value 1, unequal under
`Packet.__eq__`, though `uint8` round-trips at 5.  Second, the
transforming-property packet of Packet's own docstring, whose packed ID
is empty and whose field Type round-trips at the observable value 3:
pack reads 3 via the getter, unpack re-assigns it through the setter
which stores `3 + 1`, so the unpacked instance observes 4 and is
unequal to the original. -/
theorem C1_packet_roundtrip_counterexample :
    (Pak.packetWithIdByteA.unpackA (Pak.packetWithIdByteA.packA [5]) = some [1]
      ∧ Pak.packetBodyEq [5] [1] = false ∧ Pak.RoundTrips Pak.uint8 5)
    ∧ (Pak.propPacket.idType.fpack Pak.propPacket.idVal = []
      ∧ Pak.propPacket.unpackA (Pak.propPacket.packA [3]) = some [4]
      ∧ Pak.packetBodyEq [3] [4] = false ∧ Pak.RoundTrips Pak.uint8 3) :=
  ⟨⟨rfl, rfl, fun _ => rfl⟩, ⟨rfl, rfl, rfl, fun _ => rfl⟩⟩

/-- C5 (amended): `Packet.pack` returns the ID packed via `_id_type`
followed by the concatenation of each declared field's Type-level pack
in declared order; whenever the packed ID is empty (as with the default
`_id_type = EmptyType`) the result is exactly the field concatenation
with no further framing bytes.  As literally stated, for classes
overriding `_id_type` the claim fails; see the counterexample. -/
theorem C5_pack_body_only (c : Pak.PacketClass) (vs : List Int)
    (hid : c.idType.fpack c.idVal = []) :
    c.packP vs = Pak.fieldsPackConcat c.fields vs := by
  simp only [Pak.PacketClass.packP, hid, List.nil_append]
  exact Pak.zip_flatMap_eq_fieldsPackConcat c.fields vs

/-- C5 witness: the amended statement at the concrete two-field packet. -/
theorem C5_pack_body_only_witness :
    Pak.basicPacket.packP [3, 4] =
      Pak.fieldsPackConcat Pak.basicPacket.fields [3, 4] :=
  C5_pack_body_only Pak.basicPacket [3, 4] rfl

/-- C5 counterexample: with `_id_type` a one-byte Type and `id() = 1`,
packing the instance with field value 5 yields `[1, 5]`, not the bare
field concatenation `[5]`: the packed ID byte is included in the
result, refuting the claim as stated. -/
theorem C5_pack_body_only_counterexample :
    Pak.packetWithIdByte.packP [5] = [1, 5] ∧
      Pak.fieldsPackConcat Pak.packetWithIdByte.fields [5] = [5] :=
  ⟨rfl, rfl⟩

/-- C2: the four size-resolution tiers of `Type.size`: a plain constant
slot is returned unchanged regardless of the value; a computed rule
(classmethod or DynamicValue) that yields an integer determines the
result; a rule reporting unknown (absent slot, `None` result, or a
raised no-static-size error) falls back to packing a supplied value and
measuring its byte length; and with no value supplied (the
`STATIC_SIZE` sentinel) a no-static-size error is raised. -/
theorem C2_size_tiers (T : Pak.SizedType) (value : Option Int) (ctx : Nat) :
    (∀ c, T.sizeSlot = Pak.SizeSlot.constSlot c → T.size value ctx = Except.ok c)
    ∧ (∀ f n, T.sizeSlot = Pak.SizeSlot.methodSlot f → f value ctx = Except.ok (some n) →
        T.size value ctx = Except.ok n)
    ∧ (∀ g n, T.sizeSlot = Pak.SizeSlot.dynSlot g → g ctx = Except.ok (some n) →
        T.size value ctx = Except.ok n)
    ∧ (∀ v, Pak.slotReportsUnknown T value ctx → value = some v →
        T.size value ctx = Except.ok (Int.ofNat (T.spack v ctx).length))
    ∧ (Pak.slotReportsUnknown T value ctx → value = none →
        T.size value ctx = Except.error ()) := by
  refine ⟨?_, ?_, ?_, ?_, ?_⟩
  · intro c hc
    simp [Pak.SizedType.size, hc]
  · intro f n hf hval
    simp [Pak.SizedType.size, hf, hval]
  · intro g n hg hval
    simp [Pak.SizedType.size, hg, hval]
  · intro v hunk hval
    subst hval
    cases hslot : T.sizeSlot with
    | noneSlot => simp [Pak.SizedType.size, hslot]
    | constSlot c => simp [Pak.slotReportsUnknown, hslot] at hunk
    | methodSlot f =>
      simp only [Pak.slotReportsUnknown, hslot] at hunk
      rcases hunk with h1 | h1 <;> simp [Pak.SizedType.size, hslot, h1]
    | dynSlot g =>
      simp only [Pak.slotReportsUnknown, hslot] at hunk
      rcases hunk with h1 | h1 <;> simp [Pak.SizedType.size, hslot, h1]
  · intro hunk hval
    subst hval
    cases hslot : T.sizeSlot with
    | noneSlot => simp [Pak.SizedType.size, hslot]
    | constSlot c => simp [Pak.slotReportsUnknown, hslot] at hunk
    | methodSlot f =>
      simp only [Pak.slotReportsUnknown, hslot] at hunk
      rcases hunk with h1 | h1 <;> simp [Pak.SizedType.size, hslot, h1]
    | dynSlot g =>
      simp only [Pak.slotReportsUnknown, hslot] at hunk
      rcases hunk with h1 | h1 <;> simp [Pak.SizedType.size, hslot, h1]

/-- C2 witness: the Type with constant size slot 4 reports size 4 with
no value supplied. -/
theorem C2_size_tiers_witness : Pak.staticSize4.size none 0 = Except.ok 4 :=
  (C2_size_tiers Pak.staticSize4 none 0).1 4 rfl

theorem heapGet_append_left (h l : Pak.Heap) (a : Nat) (ha : a < h.length) :
    Pak.heapGet (h ++ l) a = Pak.heapGet h a := by
  induction h generalizing a with
  | nil => simp at ha
  | cons o h ih =>
    cases a with
    | zero => rfl
    | succ a =>
      simp only [Pak.heapGet, List.cons_append, List.getD_cons_succ] at ih ⊢
      exact ih a (by simpa using ha)

theorem heapGet_append_self (h : Pak.Heap) (o : Pak.HObj) :
    Pak.heapGet (h ++ [o]) h.length = o := by
  induction h with
  | nil => rfl
  | cons x h ih =>
    simpa only [Pak.heapGet, List.cons_append, List.length_cons, List.getD_cons_succ] using ih

theorem set_append_length (h : Pak.Heap) (o c : Pak.HObj) :
    (h ++ [o]).set h.length c = h ++ [c] := by
  induction h with
  | nil => rfl
  | cons x h ih =>
    simpa only [List.cons_append, List.length_cons, List.set_cons_succ] using
      congrArg (x :: ·) ih

/-- C7 (amended): `Type.default` invokes a computed default rule
(classmethod or DynamicValue) when one is declared, raises a TypeError
when the slot is `None`, and otherwise returns `copy.deepcopy` of the
constant default.  For a mutable constant the copy lives at a fresh
address distinct from the stored default, and mutating the returned
copy does not affect later calls: a second call still returns a copy of
the unchanged stored object.  As literally stated the claim fails for
immutable atomic constants, where `deepcopy` returns the stored object
itself; see the counterexample. -/
theorem C7_default_resolution (slot : Pak.DefaultSlot) (ctx : Nat) (h : Pak.Heap) :
    (∀ f, slot = Pak.DefaultSlot.methodSlot f →
      Pak.typeDefault slot ctx h = Except.ok (f ctx, h))
    ∧ (∀ g, slot = Pak.DefaultSlot.dynSlot g →
      Pak.typeDefault slot ctx h = Except.ok (g ctx, h))
    ∧ (slot = Pak.DefaultSlot.noneSlot → Pak.typeDefault slot ctx h = Except.error ())
    ∧ (∀ a, slot = Pak.DefaultSlot.constSlot a → a < h.length →
        (Pak.heapGet h a).mutable = true →
        Pak.typeDefault slot ctx h = Except.ok (h.length, h ++ [Pak.heapGet h a])
        ∧ h.length ≠ a
        ∧ ∀ x,
            Pak.typeDefault slot ctx (Pak.heapSet h.length x (h ++ [Pak.heapGet h a]))
              = Except.ok (h.length + 1, (h ++ [⟨true, x⟩]) ++ [Pak.heapGet h a])) := by
  refine ⟨?_, ?_, ?_, ?_⟩
  · intro f hf; subst hf; rfl
  · intro g hg; subst hg; rfl
  · intro hn; subst hn; rfl
  · intro a hs ha hmut
    subst hs
    refine ⟨?_, Nat.ne_of_gt ha, ?_⟩
    · simp [Pak.typeDefault, Pak.deepcopy, hmut]
    · intro x
      have hset : Pak.heapSet h.length x (h ++ [Pak.heapGet h a]) = h ++ [⟨true, x⟩] := by
        unfold Pak.heapSet
        rw [heapGet_append_self, hmut, set_append_length]
      rw [hset]
      have hget2 : Pak.heapGet (h ++ [⟨true, x⟩]) a = Pak.heapGet h a :=
        heapGet_append_left h [⟨true, x⟩] a ha
      simp [Pak.typeDefault, Pak.deepcopy, hget2, hmut]

/-- C7 witness: the amended statement at a concrete Type whose constant
default is a mutable object with data 7: the returned default lives at
the fresh address 1, not at the stored address 0, and after mutating
the copy to hold 9 a second call still copies the original object. -/
theorem C7_default_resolution_witness :
    Pak.typeDefault (Pak.DefaultSlot.constSlot 0) 0 Pak.mutHeap
        = Except.ok (1, Pak.mutHeap ++ [⟨true, 7⟩])
    ∧ (1 : Nat) ≠ 0
    ∧ Pak.typeDefault (Pak.DefaultSlot.constSlot 0) 0
          (Pak.heapSet 1 9 (Pak.mutHeap ++ [Pak.heapGet Pak.mutHeap 0]))
        = Except.ok (2, (Pak.mutHeap ++ [⟨true, 9⟩]) ++ [⟨true, 7⟩]) := by
  have hmain :=
    (C7_default_resolution (Pak.DefaultSlot.constSlot 0) 0 Pak.mutHeap).2.2.2 0 rfl
      (by decide) (by decide)
  exact ⟨hmain.1, hmain.2.1, hmain.2.2 9⟩

/-- C4: the Enum sentinel behavior: whenever the underlying element
Type decodes successfully but the decoded value matches no declared
constant, unpacking returns the reserved INVALID sentinel without
raising; and packing the INVALID sentinel always raises. -/
theorem C4_enum_sentinel (elem : Pak.FieldType) (members : List (String × Int))
    (buf : List Nat) :
    (∀ v rest, elem.funpack buf = some (v, rest) → Pak.enumLookup members v = none →
      Pak.enumUnpack elem members buf = some (Pak.EnumValue.invalid, rest))
    ∧ Pak.enumPack elem Pak.EnumValue.invalid = Except.error () := by
  constructor
  · intro v rest hun hlk
    simp [Pak.enumUnpack, hun, hlk]
  · rfl

/-- C4 witness: over the enum with members A = 1, B = 2 and a one-byte
element Type, unpacking the byte 3 yields the INVALID sentinel. -/
theorem C4_enum_sentinel_witness :
    Pak.uint8.funpack [3] = some (3, [])
    ∧ Pak.enumLookup Pak.myEnumMembers 3 = none
    ∧ Pak.enumUnpack Pak.uint8 Pak.myEnumMembers [3]
        = some (Pak.EnumValue.invalid, []) :=
  ⟨rfl, rfl, (C4_enum_sentinel Pak.uint8 Pak.myEnumMembers [3]).1 3 [] rfl rfl⟩

/-- C10: typelike consistency: `Type.is_typelike(x)` is true exactly
when the conversion `Type(x)` succeeds (x is a Type subclass, returned
unchanged, or an instance of some registered typelike class, converted
by the first matching registered converter); otherwise `Type(x)` raises
TypeError. -/
theorem C10_typelike_consistency (ists : Nat → Bool) (reg : List Pak.TypelikeEntry)
    (x : Nat) :
    (Pak.isTypelike ists reg x = true ↔ ∃ t, Pak.typeNew ists reg x = Except.ok t)
    ∧ (ists x = true → Pak.typeNew ists reg x = Except.ok x) := by
  constructor
  · constructor
    · intro h
      simp only [Pak.isTypelike, Bool.or_eq_true] at h
      by_cases hi : ists x = true
      · exact ⟨x, by simp [Pak.typeNew, hi]⟩
      · rcases h with h | h
        · exact absurd h hi
        · rw [List.any_eq_true] at h
          obtain ⟨e, he, hex⟩ := h
          obtain ⟨e2, hfind⟩ : ∃ e2, reg.find? (fun e => e.isInst x) = some e2 := by
            cases hf : reg.find? (fun e => e.isInst x) with
            | some e2 => exact ⟨e2, rfl⟩
            | none =>
              have hnone := List.find?_eq_none.mp hf e he
              simp [hex] at hnone
          exact ⟨e2.conv x, by simp [Pak.typeNew, hi, hfind]⟩
    · rintro ⟨t, ht⟩
      by_cases hi : ists x = true
      · simp [Pak.isTypelike, hi]
      · simp only [Pak.typeNew, hi, if_false] at ht
        cases hf : reg.find? (fun e => e.isInst x) with
        | none => rw [hf] at ht; exact absurd ht (by simp)
        | some e =>
          have hmem := List.mem_of_find?_eq_some hf
          have hpred := List.find?_some hf
          simp only [Pak.isTypelike, Bool.or_eq_true]
          exact Or.inr (List.any_eq_true.mpr ⟨e, hmem, hpred⟩)
  · intro h
    simp [Pak.typeNew, h]

/-- C10 witness: with token 7 the only Type subclass and instances of
token 1 registered, `Type(7)` returns 7 unchanged. -/
theorem C10_typelike_consistency_witness :
    Pak.typeNew Pak.tlIsTypeSub Pak.tlReg 7 = Except.ok 7 :=
  (C10_typelike_consistency Pak.tlIsTypeSub Pak.tlReg 7).2 rfl

/-- C7 counterexample: a Type whose constant default is the immutable
atomic int 0 stored at address 0.  `Type.default` returns address 0
itself with the heap unchanged: the returned object is exactly the
stored default, because `copy.deepcopy` returns immutable atomic values
unchanged.  So the parenthetical "the returned object is never the
stored default itself" is false as stated. -/
theorem C7_default_resolution_counterexample :
    Pak.typeDefault (Pak.DefaultSlot.constSlot 0) 0 Pak.immHeap
      = Except.ok (0, Pak.immHeap) := rfl

/-- C8: ID dispatch: `subclass_with_id` returns only a descendant whose
resolved id is not None and equals the query id under value equality;
when no descendant's id matches it returns None; and the result is
memoized per (id, ctx): a fresh cache computes the scan and stores it
under the key, and the immediately following call with the same key
returns the stored result with the cache unchanged. -/
theorem C8_id_dispatch (descs : List Pak.PClass) (i : Int) (ctx : Nat) :
    (∀ s, Pak.subclassWithId descs i ctx = some s →
        s ∈ descs ∧ ∃ j, s.idFn ctx = some j ∧ j = i)
    ∧ ((∀ s ∈ descs, ∀ j, s.idFn ctx = some j → j ≠ i) →
        Pak.subclassWithId descs i ctx = none)
    ∧ (Pak.subclassWithIdCached descs [] i ctx).1 = Pak.subclassWithId descs i ctx
    ∧ Pak.subclassWithIdCached descs (Pak.subclassWithIdCached descs [] i ctx).2 i ctx
        = ((Pak.subclassWithIdCached descs [] i ctx).1,
            (Pak.subclassWithIdCached descs [] i ctx).2) := by
  refine ⟨?_, ?_, ?_, ?_⟩
  · intro s hs
    have hmem := List.mem_of_find?_eq_some hs
    have hpred := List.find?_some hs
    refine ⟨hmem, ?_⟩
    cases hj : s.idFn ctx with
    | none => rw [hj] at hpred; simp at hpred
    | some j =>
      rw [hj] at hpred
      exact ⟨j, rfl, by simpa using hpred⟩
  · intro h
    rw [Pak.subclassWithId, List.find?_eq_none]
    intro s hsmem
    cases hj : s.idFn ctx with
    | none => simp
    | some j => simpa using h s hsmem j hj
  · rfl
  · simp [Pak.subclassWithIdCached, List.find?]

/-- C8 witness: over the three variants with ids 0, 1, 2, the scan at
query id 1 returns the variant declaring id 1, the unknown id 3 is not
found, and the fresh cached call agrees with the scan. -/
theorem C8_id_dispatch_witness :
    (Pak.rootChild1 ∈ Pak.rootDescs
      ∧ ∃ j, Pak.rootChild1.idFn 0 = some j ∧ j = 1)
    ∧ Pak.subclassWithId Pak.rootDescs 3 0 = none
    ∧ (Pak.subclassWithIdCached Pak.rootDescs [] 3 0).1
        = Pak.subclassWithId Pak.rootDescs 3 0 := by
  have h1 := (C8_id_dispatch Pak.rootDescs 1 0).1 Pak.rootChild1 rfl
  have h3 := C8_id_dispatch Pak.rootDescs 3 0
  refine ⟨h1, h3.2.1 ?_, h3.2.2.1⟩
  intro s hs j hj
  fin_cases hs <;>
    · simp [Pak.rootChild0, Pak.rootChild1, Pak.rootChild2] at hj
      omega

theorem initPacketGo_defaults_ok (fs : List Pak.AccessorField) :
    ∀ store, (∀ f ∈ fs, f.fdefault.isSome) →
      ∃ st, Pak.initPacketGo fs [] store = Except.ok st := by
  induction fs with
  | nil => exact fun store _ => ⟨store, rfl⟩
  | cons f fs ih =>
    intro store hall
    have hd : f.fdefault.isSome := hall f (List.mem_cons_self f fs)
    have htl : ∀ g ∈ fs, g.fdefault.isSome := fun g hg => hall g (List.mem_cons_of_mem f hg)
    have hpop : Pak.popKw [] f.aname = none := rfl
    cases hdf : f.fdefault with
    | none => rw [hdf] at hd; simp at hd
    | some d =>
      cases hset : f.settable with
      | true =>
        obtain ⟨st, hst⟩ := ih (store ++ [(f.aname, d)]) htl
        exact ⟨st, by simp [Pak.initPacketGo, hpop, hdf, hset, hst]⟩
      | false =>
        obtain ⟨st, hst⟩ := ih store htl
        exact ⟨st, by simp [Pak.initPacketGo, hpop, hdf, hset, hst]⟩

theorem initPacketGo_kwarg_readonly (fs : List Pak.AccessorField) :
    ∀ (f : Pak.AccessorField) (v : Int) (store : List (String × Int)),
      f ∈ fs → f.settable = false → (fs.map Pak.AccessorField.aname).Nodup →
      (∀ g ∈ fs, g.fdefault.isSome) →
      Pak.initPacketGo fs [(f.aname, v)] store = Except.error "AttributeError" := by
  induction fs with
  | nil => intro f v store hmem; simp at hmem
  | cons g fs ih =>
    intro f v store hmem hro hnd hall
    rcases List.mem_cons.mp hmem with heq | hmemtl
    · subst heq
      have hpop : Pak.popKw [(f.aname, v)] f.aname = some (v, []) := by
        simp [Pak.popKw, List.find?, List.eraseP]
      simp [Pak.initPacketGo, hpop, hro]
    · have hndc :
          (∀ x ∈ fs, ¬ x.aname = g.aname)
            ∧ (fs.map Pak.AccessorField.aname).Nodup := by
        simpa using hnd
      have hne : ¬ f.aname = g.aname := hndc.1 f hmemtl
      have hbeq : (f.aname == g.aname) = false := beq_eq_false_iff_ne.mpr hne
      have hpop : Pak.popKw [(f.aname, v)] g.aname = none := by
        simp [Pak.popKw, List.find?, hbeq]
      have hd := hall g (List.mem_cons_self g fs)
      have halltl : ∀ x ∈ fs, x.fdefault.isSome :=
        fun x hx => hall x (List.mem_cons_of_mem g hx)
      have hrec := ih f v
      cases hdf : g.fdefault with
      | none => rw [hdf] at hd; simp at hd
      | some d =>
        cases hset : g.settable with
        | true =>
          simpa [Pak.initPacketGo, hpop, hdf, hset] using
            hrec (store ++ [(g.aname, d)]) hmemtl hro hndc.2 halltl
        | false =>
          simpa [Pak.initPacketGo, hpop, hdf, hset] using
            hrec store hmemtl hro hndc.2 halltl

theorem unpackAcc_isSome_iff (fs : List Pak.AccessorField) :
    ∀ buf, (Pak.unpackPacketAcc fs buf).isSome
      = (Pak.unpackFields (fs.map fun f => (f.aname, f.ftype)) buf).isSome := by
  induction fs with
  | nil => intro buf; rfl
  | cons f fs ih =>
    intro buf
    simp only [Pak.unpackPacketAcc, List.map_cons, Pak.unpackFields]
    cases hu : f.ftype.funpack buf with
    | none => rfl
    | some vr =>
      obtain ⟨v, rest⟩ := vr
      have hrec := ih rest
      cases ha : Pak.unpackPacketAcc fs rest with
      | none =>
        rw [ha] at hrec
        cases hb : Pak.unpackFields (fs.map fun f => (f.aname, f.ftype)) rest with
        | none => simp [ha, hb]
        | some p => rw [hb] at hrec; simp at hrec
      | some st =>
        rw [ha] at hrec
        cases hb : Pak.unpackFields (fs.map fun f => (f.aname, f.ftype)) rest with
        | none => rw [hb] at hrec; simp at hrec
        | some p => simp [ha, hb]

theorem unpackAcc_stripDefault (fs : List Pak.AccessorField) :
    ∀ buf, Pak.unpackPacketAcc (fs.map Pak.stripDefault) buf
      = Pak.unpackPacketAcc fs buf := by
  induction fs with
  | nil => intro buf; rfl
  | cons f fs ih =>
    intro buf
    simp only [List.map_cons, Pak.unpackPacketAcc, Pak.stripDefault]
    cases hu : f.ftype.funpack buf with
    | none => rfl
    | some vr =>
      obtain ⟨v, rest⟩ := vr
      simp only [ih]

/-- C6: assignment-refusal handling: default-filling in the constructor
silently skips fields whose accessor refuses assignment (given each
field Type has a default, construction with no keywords succeeds even
with read-only fields); explicitly supplying a read-only field as a
keyword surfaces the AttributeError; unpack succeeds exactly when every
field Type decodes from the buffer, regardless of which accessors
refuse assignment; and unpack fills fields strictly from the buffer,
its result unchanged when every field default is removed. -/
theorem C6_assignment_refusal (fields : List Pak.AccessorField) (buf : List Nat)
    (f : Pak.AccessorField) (v : Int) :
    ((∀ g ∈ fields, g.fdefault.isSome) →
      ∃ st, Pak.initPacket fields [] = Except.ok st)
    ∧ (f ∈ fields → f.settable = false →
        (fields.map Pak.AccessorField.aname).Nodup →
        (∀ g ∈ fields, g.fdefault.isSome) →
        Pak.initPacket fields [(f.aname, v)] = Except.error "AttributeError")
    ∧ (Pak.unpackPacketAcc fields buf).isSome
        = (Pak.unpackFields (fields.map fun g => (g.aname, g.ftype)) buf).isSome
    ∧ Pak.unpackPacketAcc (fields.map Pak.stripDefault) buf
        = Pak.unpackPacketAcc fields buf :=
  ⟨fun h => initPacketGo_defaults_ok fields [] h,
    fun hm hro hnd hall => initPacketGo_kwarg_readonly fields f v [] hm hro hnd hall,
    unpackAcc_isSome_iff fields buf,
    unpackAcc_stripDefault fields buf⟩

/-- C6 witness: with a writable field and a read-only field, default
construction succeeds, explicitly passing the read-only field errors,
and unpacking two bytes succeeds. -/
theorem C6_assignment_refusal_witness :
    (∃ st, Pak.initPacket Pak.accFields [] = Except.ok st)
    ∧ Pak.initPacket Pak.accFields [("read_only", 2)] = Except.error "AttributeError"
    ∧ (Pak.unpackPacketAcc Pak.accFields [3, 4]).isSome = true := by
  have h := C6_assignment_refusal Pak.accFields [3, 4] Pak.roField 2
  have hall : ∀ g ∈ Pak.accFields, g.fdefault.isSome := by
    intro g hg; fin_cases hg <;> rfl
  have hmem : Pak.roField ∈ Pak.accFields :=
    List.mem_cons_of_mem Pak.propField (List.mem_cons_self Pak.roField [])
  refine ⟨h.1 hall, h.2.1 hmem rfl (by decide) hall, ?_⟩
  rw [h.2.2.1]
  rfl

/-- C3: the claim describes the merged, conflict-checked field
inheritance that the repository's own tests (test_packet_inheritance,
test_packet_multiple_inheritance, with pak.DuplicateFieldError) pin
down, but `Packet._init_fields_from_annotations` in src implements
neither part: a child class declaring any field of its own rebuilds
`_fields` from its own annotations alone, dropping every ancestor
field, and no duplicate-name check exists, so redeclaring an ancestor's
field name succeeds silently at declaration time.  Evaluated at the
test's own input — parent declaring field "test", child declaring field
"other" — the code yields only [("other")], not the claimed
ancestors-first union, and redeclaring "test" raises nothing. -/
theorem C3_field_merge_code_bug :
    Pak.initFields [("other", 0)] [("test", 0)] = [("other", 0)]
    ∧ Pak.initFields [("other", 0)] [("test", 0)] ≠ [("test", 0), ("other", 0)]
    ∧ Pak.initFields [("test", 1)] [("test", 0)] = [("test", 1)] :=
  ⟨rfl, by decide, rfl⟩

/-- C9: the claim describes the immutable-after-construction, hash and
equality enforcing Packet context that the repository's own tests
(test_packet_context) pin down, but the `PacketContext` class in src is
a bare docstring-only class: setting an attribute on an instance after
construction succeeds (ordinary Python assignment, no error), and
declaring a subclass with neither `__hash__` nor `__eq__` succeeds at
declaration time. -/
theorem C9_packet_context_code_bug :
    Pak.packetContextSetattr [] "attr" 5 = Except.ok [("attr", 5)]
    ∧ Pak.packetContextDeclareSubclass false false = Except.ok () :=
  ⟨rfl, rfl⟩

